import Mathlib

/-
Verification development for the extraction-and-rate-limited-ingestion
pipeline of the basic-analytics-on-github repository.

Each section shallowly embeds one component of the source:
  - DBHandler.drop_duplicates            (src/utils/db_handler.py)
  - RepoInfoExtractor (rate budget, pagination, idempotent skip)
                                         (src/etl/repo_info/extractor.py)
  - make_safe_request                    (src/utils/api.py)
  - RepoStructureExtractor.extract       (src/etl/extractors/repo_structure.py)
  - RepoStructureExtractor.fetch_repo_structure
                                         (src/etl/extraction/repo_structure.py)
  - PythonPackagesExtractor.parse_content / extract_package_info
                                         (src/etl/repo_content/py_packages_extraction.py)
-/

set_option autoImplicit false

/-! ## Incremental upsert store: DBHandler.drop_duplicates

The SQL statement issued by DBHandler.drop_duplicates is

  DELETE FROM t t1 USING t t2
  WHERE t1.updated_at < t2.updated_at AND t1.k = t2.k  (for each key column k)

Under PostgreSQL snapshot semantics a row r is deleted exactly when some row
r2 of the pre-statement table agrees with r on every key column and has a
strictly larger order-column value.  We model a table as a list of rows; the
key columns of a row are collapsed into the list of their values. -/

/-- Row of a warehouse table: values at the key columns, the order column
(updated_at), and an opaque payload distinguishing otherwise equal rows. -/
structure DBRow where
  keys : List String
  updated : Nat
  payload : Nat
deriving DecidableEq

/-- Shallow embedding of DBHandler.drop_duplicates (src/utils/db_handler.py,
lines 62-75): a row survives unless another row of the same table has equal
key-column values and a strictly larger updated_at. -/
def drop_duplicates (rows : List DBRow) : List DBRow :=
  rows.filter fun r1 =>
    ! rows.any fun r2 => decide (r1.updated < r2.updated) && decide (r2.keys = r1.keys)

theorem mem_drop_duplicates_iff (rows : List DBRow) (r : DBRow) :
    r ∈ drop_duplicates rows ↔
      r ∈ rows ∧ ∀ r2 ∈ rows, r2.keys = r.keys → ¬ r.updated < r2.updated := by
  unfold drop_duplicates
  rw [List.mem_filter]
  simp only [Bool.not_eq_true', List.any_eq_false, Bool.and_eq_true, decide_eq_true_eq,
    not_and]
  constructor
  · rintro ⟨hr, h⟩
    exact ⟨hr, fun r2 h2 hk hlt => h r2 h2 hlt hk⟩
  · rintro ⟨hr, h⟩
    exact ⟨hr, fun r2 h2 hlt hk => h r2 h2 hk hlt⟩

/-- Helper: every nonempty list of rows has a member whose updated_at is
maximal in the list. -/
theorem exists_max_updated :
    ∀ (G : List DBRow), G ≠ [] → ∃ m ∈ G, ∀ r ∈ G, r.updated ≤ m.updated := by
  intro G
  induction G with
  | nil => intro h; exact absurd rfl h
  | cons a G ih =>
    intro _
    rcases G with _ | ⟨b, G2⟩
    · exact ⟨a, List.mem_singleton.mpr rfl, by
        intro r hr
        rw [List.mem_singleton] at hr
        exact hr ▸ le_refl _⟩
    · obtain ⟨m, hm, hmax⟩ := ih (by simp)
      by_cases hcmp : a.updated ≤ m.updated
      · refine ⟨m, List.mem_cons_of_mem _ hm, ?_⟩
        intro r hr
        rcases List.mem_cons.mp hr with h | h
        · exact h ▸ hcmp
        · exact hmax r h
      · refine ⟨a, List.mem_cons_self _ _, ?_⟩
        intro r hr
        rcases List.mem_cons.mp hr with h | h
        · exact h ▸ le_refl _
        · exact le_trans (hmax r h) (le_of_not_le hcmp)

/-- Helper: in a list of rows whose updated_at values are pairwise distinct,
filtering on the updated_at of a member keeps exactly that member. -/
theorem filter_eq_updated_singleton :
    ∀ (G : List DBRow) (m : DBRow), m ∈ G →
      (G.map DBRow.updated).Nodup →
      G.filter (fun r => decide (r.updated = m.updated)) = [m] := by
  intro G
  induction G with
  | nil => intro m hm; exact absurd hm (List.not_mem_nil m)
  | cons a G ih =>
    intro m hm hnd
    rw [List.map_cons, List.nodup_cons] at hnd
    obtain ⟨ha, hndG⟩ := hnd
    rcases List.mem_cons.mp hm with h | h
    · subst h
      rw [List.filter_cons_of_pos (by simp)]
      have : G.filter (fun r => decide (r.updated = m.updated)) = [] := by
        apply List.filter_eq_nil_iff.mpr
        intro r hr
        simp only [decide_eq_true_eq]
        intro heq
        exact ha (heq ▸ List.mem_map_of_mem DBRow.updated hr)
      rw [this]
    · have hne : ¬ (a.updated = m.updated) := by
        intro heq
        exact ha (heq ▸ List.mem_map_of_mem DBRow.updated h)
      rw [List.filter_cons_of_neg (by simpa using hne)]
      exact ih m h hndG

/-- Helper: restricted to rows of the key group of k, the survival predicate
of drop_duplicates agrees with comparing updated_at against the group
maximum m. -/
theorem surv_eq_decide_max (rows : List DBRow) (k : List String) (m : DBRow)
    (hmG : m ∈ rows.filter (fun r => decide (r.keys = k)))
    (hmax : ∀ r ∈ rows.filter (fun r => decide (r.keys = k)), r.updated ≤ m.updated)
    (r : DBRow) (hr : r ∈ rows.filter (fun r => decide (r.keys = k))) :
    (! rows.any fun r2 => decide (r.updated < r2.updated) && decide (r2.keys = r.keys))
      = decide (r.updated = m.updated) := by
  rw [Bool.eq_iff_iff, decide_eq_true_eq]
  have hrG := hr
  rw [List.mem_filter, decide_eq_true_eq] at hr hmG
  obtain ⟨hrRows, hrk⟩ := hr
  obtain ⟨hmRows, hmk⟩ := hmG
  simp only [Bool.not_eq_true', List.any_eq_false, Bool.and_eq_true, decide_eq_true_eq,
    not_and]
  constructor
  · intro h
    have hle : r.updated ≤ m.updated := hmax r hrG
    rcases lt_or_eq_of_le hle with hlt | heq
    · exact absurd (hmk.trans hrk.symm) (h m hmRows hlt)
    · exact heq
  · intro heq r2 h2 hlt hk
    have h2G : r2 ∈ rows.filter (fun r => decide (r.keys = k)) :=
      List.mem_filter.mpr ⟨h2, by simp [hk, hrk]⟩
    have := hmax r2 h2G
    omega

/-- Claim C8: after drop_duplicates, every key group whose updated_at values
are pairwise distinct retains exactly one row, the one with the maximum
updated_at; survival of rows with other keys is characterized by their own
key group only, so they are unaffected by this group. -/
theorem drop_duplicates_distinct_keeps_max (rows : List DBRow) (k : List String)
    (hne : rows.filter (fun r => decide (r.keys = k)) ≠ [])
    (hnd : ((rows.filter (fun r => decide (r.keys = k))).map DBRow.updated).Nodup) :
    ∃ m, m ∈ rows.filter (fun r => decide (r.keys = k)) ∧
      (∀ r ∈ rows.filter (fun r => decide (r.keys = k)), r.updated ≤ m.updated) ∧
      (drop_duplicates rows).filter (fun r => decide (r.keys = k)) = [m] ∧
      (∀ r, r.keys ≠ k →
        (r ∈ drop_duplicates rows ↔
          r ∈ rows ∧ ∀ r2 ∈ rows, r2.keys = r.keys → ¬ r.updated < r2.updated)) := by
  obtain ⟨m, hmG, hmax⟩ := exists_max_updated _ hne
  refine ⟨m, hmG, hmax, ?_, fun r _ => mem_drop_duplicates_iff rows r⟩
  unfold drop_duplicates
  rw [List.filter_comm]
  rw [List.filter_congr (fun r hr => surv_eq_decide_max rows k m hmG hmax r hr)]
  exact filter_eq_updated_singleton _ m hmG hnd

/-- Witness for C8 at a concrete table: group "a" has distinct timestamps
3 and 5, so exactly the row with updated_at 5 remains in that group. -/
theorem drop_duplicates_distinct_keeps_max_witness :
    ∃ m, m ∈ ([⟨["a"], 3, 1⟩, ⟨["a"], 5, 2⟩, ⟨["b"], 4, 3⟩] : List DBRow).filter
        (fun r => decide (r.keys = ["a"])) ∧
      (∀ r ∈ ([⟨["a"], 3, 1⟩, ⟨["a"], 5, 2⟩, ⟨["b"], 4, 3⟩] : List DBRow).filter
        (fun r => decide (r.keys = ["a"])), r.updated ≤ m.updated) ∧
      (drop_duplicates [⟨["a"], 3, 1⟩, ⟨["a"], 5, 2⟩, ⟨["b"], 4, 3⟩]).filter
        (fun r => decide (r.keys = ["a"])) = [m] ∧
      (∀ r, r.keys ≠ ["a"] →
        (r ∈ drop_duplicates [⟨["a"], 3, 1⟩, ⟨["a"], 5, 2⟩, ⟨["b"], 4, 3⟩] ↔
          r ∈ ([⟨["a"], 3, 1⟩, ⟨["a"], 5, 2⟩, ⟨["b"], 4, 3⟩] : List DBRow) ∧
            ∀ r2 ∈ ([⟨["a"], 3, 1⟩, ⟨["a"], 5, 2⟩, ⟨["b"], 4, 3⟩] : List DBRow),
              r2.keys = r.keys → ¬ r.updated < r2.updated)) :=
  drop_duplicates_distinct_keeps_max
    [⟨["a"], 3, 1⟩, ⟨["a"], 5, 2⟩, ⟨["b"], 4, 3⟩] ["a"] (by decide) (by decide)

/-- Claim C10: a row is deleted by drop_duplicates only if another row of its
key group has a strictly larger updated_at; consequently every row carrying a
maximal updated_at of its group survives, ties included. -/
theorem drop_duplicates_survivor_characterization :
    (∀ (rows : List DBRow) (r : DBRow),
        r ∈ drop_duplicates rows ↔
          r ∈ rows ∧ ∀ r2 ∈ rows, r2.keys = r.keys → ¬ r.updated < r2.updated) ∧
    (∀ (rows : List DBRow) (r : DBRow), r ∈ rows →
        (∀ r2 ∈ rows, r2.keys = r.keys → r2.updated ≤ r.updated) →
        r ∈ drop_duplicates rows) := by
  constructor
  · exact mem_drop_duplicates_iff
  · intro rows r hr h
    exact (mem_drop_duplicates_iff rows r).mpr
      ⟨hr, fun r2 h2 hk hlt => absurd (h r2 h2 hk) (not_le.mpr hlt)⟩

/-- Witness for C10 at a concrete table: two rows tie on the maximal
updated_at 5 of group "a"; both survive drop_duplicates. -/
theorem drop_duplicates_survivor_characterization_witness :
    DBRow.mk ["a"] 5 1 ∈
      drop_duplicates [⟨["a"], 5, 1⟩, ⟨["a"], 5, 2⟩, ⟨["a"], 3, 3⟩] ∧
    DBRow.mk ["a"] 5 2 ∈
      drop_duplicates [⟨["a"], 5, 1⟩, ⟨["a"], 5, 2⟩, ⟨["a"], 3, 3⟩] :=
  ⟨drop_duplicates_survivor_characterization.2 _ _ (by decide) (by decide),
   drop_duplicates_survivor_characterization.2 _ _ (by decide) (by decide)⟩

/-! ## Request budget tracker: RepoInfoExtractor rate limiting

RepoInfoExtractor keeps a window start time and a request counter.  Before
each page request, fetch_repos sleeps while the counter has reached
max_requests_per_hour and the window has not elapsed; after the request (and
the fixed pagination sleep) _update_request_counter increments the counter if
the window is still open and otherwise resets the window to the current time
and the counter to 0.  Time is modeled as Nat seconds; a step carries the
nonnegative delay between issuing the request and the counter update (request
duration plus pagination sleep). -/

/-- Mutable rate-budget state of RepoInfoExtractor: window start time
(self._start) and requests counted in the window (self._request_counter). -/
structure RateState where
  start : Nat
  counter : Nat
deriving DecidableEq

/-- Shallow embedding of RepoInfoExtractor._update_request_counter
(src/etl/repo_info/extractor.py, lines 108-113), evaluated at absolute time
now: inside the window the counter increments, otherwise the window restarts
at now with a zero counter. -/
def update_request_counter (window : Nat) (s : RateState) (now : Nat) : RateState :=
  if now - s.start < window then { s with counter := s.counter + 1 }
  else { start := now, counter := 0 }

/-- Shallow embedding of one request issue in RepoInfoExtractor.fetch_repos
(src/etl/repo_info/extractor.py, lines 121-128 and 145-146): if the counter
has reached maxReq, sleep until the window elapses (the bounded 60-second
sleep slices only subdivide this wait); then issue the request, wait delta
more seconds (request time plus pagination sleep), and update the counter.
Returns (blocked?, time after the step, state after the step). -/
def requestStep (maxReq window : Nat) (s : RateState) (now delta : Nat) :
    Bool × Nat × RateState :=
  let blocked := decide (maxReq ≤ s.counter) && decide (now < s.start + window)
  let now1 := if maxReq ≤ s.counter then max now (s.start + window) else now
  let now2 := now1 + delta
  (blocked, now2, update_request_counter window s now2)

/-- Sequence of requests through requestStep, one per delay in deltas. -/
def runRequests (maxReq window : Nat) (s : RateState) (now : Nat) :
    List Nat → List Bool × Nat × RateState
  | [] => ([], now, s)
  | delta :: rest =>
    let step := requestStep maxReq window s now delta
    let cont := runRequests maxReq window step.2.2 step.2.1 rest
    (step.1 :: cont.1, cont.2.1, cont.2.2)

/-- Helper for C1: a batch of requests whose updates all land inside the open
window never blocks, increments the counter once per request, and leaves the
window start unchanged. -/
theorem runRequests_in_window (maxReq window : Nat) :
    ∀ (deltas : List Nat) (s : RateState) (now : Nat),
      s.start ≤ now →
      s.counter + deltas.length ≤ maxReq →
      now + deltas.sum < s.start + window →
      (runRequests maxReq window s now deltas).1 = List.replicate deltas.length false ∧
      (runRequests maxReq window s now deltas).2.1 = now + deltas.sum ∧
      (runRequests maxReq window s now deltas).2.2 =
        { start := s.start, counter := s.counter + deltas.length } := by
  intro deltas
  induction deltas with
  | nil =>
    intro s now _ _ _
    simp [runRequests]
  | cons delta rest ih =>
    intro s now hstart hcnt hwin
    have hlt : s.counter < maxReq := by
      simp only [List.length_cons] at hcnt; omega
    have hupd : now + delta - s.start < window := by
      simp only [List.sum_cons] at hwin; omega
    have hstep : requestStep maxReq window s now delta =
        (false, now + delta, { start := s.start, counter := s.counter + 1 }) := by
      unfold requestStep update_request_counter
      simp [not_le.mpr hlt, hupd]
    have hstart2 : ({ start := s.start, counter := s.counter + 1 } : RateState).start
        ≤ now + delta := by
      simpa using le_trans hstart (Nat.le_add_right now delta)
    have hcnt2 : ({ start := s.start, counter := s.counter + 1 } : RateState).counter
        + rest.length ≤ maxReq := by
      simp only [List.length_cons] at hcnt; simp only []; omega
    have hwin2 : (now + delta) + rest.sum <
        ({ start := s.start, counter := s.counter + 1 } : RateState).start + window := by
      simp only [List.sum_cons] at hwin; simp only []; omega
    obtain ⟨h1, h2, h3⟩ := ih { start := s.start, counter := s.counter + 1 } (now + delta)
      hstart2 hcnt2 hwin2
    refine ⟨?_, ?_, ?_⟩
    · simp only [runRequests, hstep, h1, List.length_cons, List.replicate_succ]
    · simp only [runRequests, hstep, h2, List.sum_cons]; omega
    · simp only [runRequests, hstep, h3, List.length_cons]
      congr 1
      omega

/-- Claim C1: within one rolling window the counter never exceeds the budget;
a batch of N requests with N at most the remaining budget proceeds without
blocking while the counter advances by one per request; the next request of a
full counter inside the window blocks until the window elapses; and the
counter update after window rollover resets the window start to the current
time and the counter to 0. -/
theorem rate_budget_invariant
    (maxReq window : Nat) :
    (∀ (s : RateState) (now delta : Nat), s.counter ≤ maxReq →
      (requestStep maxReq window s now delta).2.2.counter ≤ maxReq) ∧
    (∀ (deltas : List Nat) (s : RateState) (now : Nat),
      s.start ≤ now →
      s.counter + deltas.length ≤ maxReq →
      now + deltas.sum < s.start + window →
      (runRequests maxReq window s now deltas).1 = List.replicate deltas.length false ∧
      (runRequests maxReq window s now deltas).2.2 =
        { start := s.start, counter := s.counter + deltas.length }) ∧
    (∀ (s : RateState) (now delta : Nat), maxReq ≤ s.counter →
      now < s.start + window →
      (requestStep maxReq window s now delta).1 = true ∧
      (requestStep maxReq window s now delta).2.1 = s.start + window + delta ∧
      (requestStep maxReq window s now delta).2.2 =
        { start := s.start + window + delta, counter := 0 }) ∧
    (∀ (s : RateState) (now : Nat), window ≤ now - s.start →
      update_request_counter window s now = { start := now, counter := 0 }) := by
  refine ⟨?_, ?_, ?_, ?_⟩
  · intro s now delta hle
    unfold requestStep update_request_counter
    by_cases hfull : maxReq ≤ s.counter
    · have hroll : ¬ (max now (s.start + window) + delta - s.start < window) := by
        have := le_max_right now (s.start + window)
        omega
      simp only [if_pos hfull, if_neg hroll]
      exact Nat.zero_le _
    · by_cases hin : now + delta - s.start < window
      · simp only [if_neg hfull, if_pos hin]
        omega
      · simp only [if_neg hfull, if_neg hin]
        exact Nat.zero_le _
  · intro deltas s now hstart hcnt hwin
    obtain ⟨h1, _, h3⟩ := runRequests_in_window maxReq window deltas s now hstart hcnt hwin
    exact ⟨h1, h3⟩
  · intro s now delta hfull hin
    have hmax : max now (s.start + window) = s.start + window := by omega
    have hroll : ¬ (s.start + window + delta - s.start < window) := by omega
    unfold requestStep update_request_counter
    refine ⟨?_, ?_, ?_⟩
    · simp [hfull, hin]
    · simp [if_pos hfull, hmax]
    · simp only [if_pos hfull, hmax, if_neg hroll]
  · intro s now hroll
    unfold update_request_counter
    rw [if_neg (by omega)]

/-- Witness for C1: budget 2, window 100, fresh state at time 10; two
requests with delays 1 and 2 pass unblocked, the third request blocks until
time 100 + 3, after which the window restarts with a zero counter. -/
theorem rate_budget_invariant_witness :
    ((requestStep 2 100 ⟨0, 2⟩ 13 3).2.2.counter ≤ 2) ∧
    ((runRequests 2 100 ⟨0, 0⟩ 10 [1, 2]).1 = List.replicate 2 false ∧
      (runRequests 2 100 ⟨0, 0⟩ 10 [1, 2]).2.2 = { start := 0, counter := 2 }) ∧
    ((requestStep 2 100 ⟨0, 2⟩ 13 3).1 = true ∧
      (requestStep 2 100 ⟨0, 2⟩ 13 3).2.1 = 0 + 100 + 3 ∧
      (requestStep 2 100 ⟨0, 2⟩ 13 3).2.2 = { start := 0 + 100 + 3, counter := 0 }) ∧
    (update_request_counter 100 ⟨0, 2⟩ 103 = { start := 103, counter := 0 }) :=
  ⟨(rate_budget_invariant 2 100).1 ⟨0, 2⟩ 13 3 (by decide),
   (rate_budget_invariant 2 100).2.1 [1, 2] ⟨0, 0⟩ 10 (by decide) (by decide) (by decide),
   (rate_budget_invariant 2 100).2.2.1 ⟨0, 2⟩ 13 3 (by decide) (by decide),
   (rate_budget_invariant 2 100).2.2.2 ⟨0, 2⟩ 103 (by decide)⟩

/-! ## Paginated search harvester: RepoInfoExtractor.fetch_repos

The paging loop of fetch_repos iterates page = 1 .. max_pages; every
iteration issues exactly one search request, appends the returned items, and
then breaks if the page ceiling is reached, the reported total_count is below
one full page, or the page carried no items.  The provider is modeled as a
function from page number to its response; items are opaque identifiers.
The rate limiting inside the loop is modeled separately by requestStep. -/

/-- Search endpoint response for one page: the reported total_count and the
list of items. -/
structure PageResp where
  total : Nat
  items : List Nat
deriving DecidableEq

/-- Break condition at the end of one paging iteration of fetch_repos
(src/etl/repo_info/extractor.py, line 148):
page at or past the ceiling, or reported total below one full page, or an
empty page. -/
def stopCond (maxPages perPage : Nat) (r : PageResp) (page : Nat) : Bool :=
  decide (maxPages ≤ page) || decide (r.total < perPage) || r.items.isEmpty

/-- Paging loop of fetch_repos starting at the given page with the given
remaining iterations; returns the concatenated items and the number of page
requests issued. -/
def fetchPagesGo (provider : Nat → PageResp) (maxPages perPage : Nat) :
    Nat → Nat → List Nat × Nat
  | 0, _ => ([], 0)
  | fuel + 1, page =>
    let r := provider page
    if stopCond maxPages perPage r page then (r.items, 1)
    else
      let rest := fetchPagesGo provider maxPages perPage fuel (page + 1)
      (r.items ++ rest.1, rest.2 + 1)

/-- Shallow embedding of the pagination skeleton of
RepoInfoExtractor.fetch_repos (src/etl/repo_info/extractor.py, lines
115-151): the for-loop runs pages 1 .. max_pages with the break condition of
stopCond checked after each request. -/
def fetch_repos (provider : Nat → PageResp) (maxPages perPage : Nat) : List Nat × Nat :=
  fetchPagesGo provider maxPages perPage maxPages 1

/-- Helper: one-step unfolding of the paging loop. -/
theorem fetchPagesGo_succ (provider : Nat → PageResp) (maxPages perPage fuel page : Nat) :
    fetchPagesGo provider maxPages perPage (fuel + 1) page =
      if stopCond maxPages perPage (provider page) page then ((provider page).items, 1)
      else
        ((provider page).items ++ (fetchPagesGo provider maxPages perPage fuel (page + 1)).1,
          (fetchPagesGo provider maxPages perPage fuel (page + 1)).2 + 1) := rfl

/-- Helper for C2: with full pages and large totals everywhere, the loop
spends all remaining pages, one request each. -/
theorem fetchPagesGo_full (provider : Nat → PageResp) (maxPages perPage : Nat)
    (hfull : ∀ p, perPage ≤ (provider p).total ∧ (provider p).items ≠ []) :
    ∀ (k page : Nat), page + k = maxPages →
      (fetchPagesGo provider maxPages perPage (k + 1) page).2 = k + 1 := by
  intro k
  induction k with
  | zero =>
    intro page hp
    have hstop : stopCond maxPages perPage (provider page) page = true := by
      simp only [stopCond, Bool.or_eq_true, decide_eq_true_eq]
      exact Or.inl (Or.inl (by omega))
    rw [fetchPagesGo_succ, if_pos hstop]
  | succ k ih =>
    intro page hp
    have hstop : stopCond maxPages perPage (provider page) page = false := by
      obtain ⟨ht, hi⟩ := hfull page
      simp only [stopCond, Bool.or_eq_false_iff, decide_eq_false_iff_not, not_le, not_lt,
        List.isEmpty_eq_false]
      exact ⟨⟨by omega, ht⟩, hi⟩
    have hrec := ih (page + 1) (by omega)
    rw [fetchPagesGo_succ, hstop]
    simpa using hrec

/-- Helper for C2: as long as the ceiling is within the remaining fuel, the
loop issues requests for an initial segment of pages, stops at the first page
satisfying the break condition, and no earlier page satisfies it. -/
theorem fetchPagesGo_stops (provider : Nat → PageResp) (maxPages perPage : Nat) :
    ∀ (k page : Nat), maxPages ≤ page + k →
      ∃ n0, (fetchPagesGo provider maxPages perPage (k + 1) page).2 = n0 + 1 ∧
        n0 ≤ k ∧
        stopCond maxPages perPage (provider (page + n0)) (page + n0) = true ∧
        ∀ p, page ≤ p → p < page + n0 →
          stopCond maxPages perPage (provider p) p = false := by
  intro k
  induction k with
  | zero =>
    intro page hceil
    have hstop : stopCond maxPages perPage (provider page) page = true := by
      simp only [stopCond, Bool.or_eq_true, decide_eq_true_eq]
      exact Or.inl (Or.inl (by omega))
    refine ⟨0, ?_, le_refl 0, by simpa using hstop, ?_⟩
    · rw [fetchPagesGo_succ, if_pos hstop]
    · intro p hp1 hp2; omega
  | succ k ih =>
    intro page hceil
    cases hstop : stopCond maxPages perPage (provider page) page with
    | true =>
      refine ⟨0, ?_, Nat.zero_le _, by simpa using hstop, ?_⟩
      · rw [fetchPagesGo_succ, if_pos hstop]
      · intro p hp1 hp2; omega
    | false =>
      obtain ⟨m, hm, hmk, hstopm, hrange⟩ := ih (page + 1) (by omega)
      refine ⟨m + 1, ?_, by omega, by
        have heq : page + 1 + m = page + (m + 1) := by omega
        exact heq ▸ hstopm, ?_⟩
      · rw [fetchPagesGo_succ, hstop]
        simpa using hm
      · intro p hp1 hp2
        rcases Nat.eq_or_lt_of_le hp1 with h | h
        · exact h ▸ hstop
        · exact hrange p h (by omega)

/-- Claim C2: fetch_repos paging stops exactly at the first page satisfying
the break condition; a provider reporting total_count 0 terminates after
exactly one page request; a provider returning full pages with large totals
terminates after exactly maxPages requests, never past the ceiling. -/
theorem pagination_termination (provider : Nat → PageResp) (maxPages perPage : Nat)
    (hmp : 1 ≤ maxPages) (hpp : 1 ≤ perPage) :
    ((provider 1).total = 0 →
      fetch_repos provider maxPages perPage = ((provider 1).items, 1)) ∧
    ((∀ p, perPage ≤ (provider p).total ∧ (provider p).items ≠ []) →
      (fetch_repos provider maxPages perPage).2 = maxPages) ∧
    (∃ n0, (fetch_repos provider maxPages perPage).2 = n0 + 1 ∧ n0 + 1 ≤ maxPages ∧
      stopCond maxPages perPage (provider (1 + n0)) (1 + n0) = true ∧
      ∀ p, 1 ≤ p → p < 1 + n0 → stopCond maxPages perPage (provider p) p = false) := by
  obtain ⟨k, rfl⟩ : ∃ k, maxPages = k + 1 := ⟨maxPages - 1, by omega⟩
  refine ⟨?_, ?_, ?_⟩
  · intro h0
    have hstop : stopCond (k + 1) perPage (provider 1) 1 = true := by
      simp only [stopCond, Bool.or_eq_true, decide_eq_true_eq]
      exact Or.inl (Or.inr (by omega))
    unfold fetch_repos
    rw [fetchPagesGo_succ, if_pos hstop]
  · intro hfull
    exact fetchPagesGo_full provider (k + 1) perPage hfull k 1 (by omega)
  · obtain ⟨n0, hn, hnk, hstopn, hrange⟩ :=
      fetchPagesGo_stops provider (k + 1) perPage k 1 (by omega)
    exact ⟨n0, hn, by omega, hstopn, hrange⟩

/-- Witness for C2: an exhausted provider (total_count 0) makes exactly one
request; a full-pages provider makes exactly the ceiling of 10 requests. -/
theorem pagination_termination_witness :
    (fetch_repos (fun _ => ⟨0, []⟩) 10 100 = ([], 1)) ∧
    ((fetch_repos (fun _ => ⟨1000, [7]⟩) 10 100).2 = 10) :=
  ⟨(pagination_termination (fun _ => ⟨0, []⟩) 10 100 (by decide) (by decide)).1 (by decide),
   (pagination_termination (fun _ => ⟨1000, [7]⟩) 10 100 (by decide) (by decide)).2.1
     (fun _ => ⟨by decide, by decide⟩)⟩

/-! ## Rate-limited HTTP client: make_safe_request

make_safe_request (src/utils/api.py, lines 30-48) loops while a retry
counter stays at or below retry_attempts.  Each iteration issues one GET; a
200 response is returned at once; a 403 increments the counter, sleeps
timeout seconds, and retries; any other status breaks the loop and the last
response is returned.  When the counter passes the budget the last (403)
response is returned.  requests.get is not wrapped in any try/except, so a
request-level exception propagates out immediately.  Attempt outcomes are
modeled as an oracle from the attempt index to either a response or a raised
exception. -/

/-- Outcome of one underlying GET: a response with status and body, or a
request-level exception. -/
inductive Outcome where
  | resp (status : Nat) (body : String)
  | exc (msg : String)
deriving DecidableEq

/-- Result of make_safe_request: a returned response, or an exception
propagating out of the function. -/
inductive ReqResult where
  | returned (status : Nat) (body : String)
  | raised (msg : String)
deriving DecidableEq

/-- Retry loop of make_safe_request with the remaining loop iterations as
fuel (the while condition counter at most retry_attempts admits exactly
retry_attempts + 1 iterations, since only a 403 increments the counter);
last is the response of the previous iteration, idx the index of the next
attempt, sleeps the seconds slept so far.  Returns the result, the number of
GET requests issued, and the total sleep time. -/
def msrGo (att : Nat → Outcome) (timeout : Nat) :
    Nat × String → Nat → Nat → Nat → ReqResult × Nat × Nat
  | last, 0, idx, sleeps => (.returned last.1 last.2, idx, sleeps)
  | _, fuel + 1, idx, sleeps =>
    match att idx with
    | .exc m => (.raised m, idx + 1, sleeps)
    | .resp s b =>
      if s = 200 then (.returned s b, idx + 1, sleeps)
      else if s = 403 then msrGo att timeout (s, b) fuel (idx + 1) (sleeps + timeout)
      else (.returned s b, idx + 1, sleeps)

/-- Shallow embedding of make_safe_request (src/utils/api.py, lines 30-48):
result, number of GET requests, and total inter-attempt sleep. -/
def make_safe_request (att : Nat → Outcome) (retry_attempts timeout : Nat) :
    ReqResult × Nat × Nat :=
  msrGo att timeout (0, "") (retry_attempts + 1) 0 0

/-- Shallow embedding of response.raise_for_status on the value returned by
make_safe_request, as called by RepoInfoExtractor.fetch_repos
(src/etl/repo_info/extractor.py, lines 130-133): a 4xx or 5xx status raises
an HTTPError carrying the response; this raised error is the ProviderError
of the specification. -/
inductive FetchStep where
  | ok (status : Nat) (body : String)
  | providerError (status : Nat) (body : String)
  | raised (msg : String)
deriving DecidableEq

/-- Request step of fetch_repos: make_safe_request followed by
raise_for_status. -/
def requestWithRaise (att : Nat → Outcome) (retry_attempts timeout : Nat) : FetchStep :=
  match (make_safe_request att retry_attempts timeout).1 with
  | .returned s b => if 400 ≤ s ∧ s < 600 then .providerError s b else .ok s b
  | .raised m => .raised m

/-- Helper for C3 and C4: when every attempt yields a 403 response, the loop
runs through all its fuel, returns the last 403 response, issues one request
per iteration, and sleeps timeout seconds after every 403. -/
theorem msrGo_all_403 (att : Nat → Outcome) (body : Nat → String) (timeout : Nat)
    (h : ∀ i, att i = .resp 403 (body i)) :
    ∀ (fuel idx sleeps : Nat) (last : Nat × String),
      msrGo att timeout last (fuel + 1) idx sleeps =
        (.returned 403 (body (idx + fuel)), idx + fuel + 1, sleeps + (fuel + 1) * timeout) := by
  intro fuel
  induction fuel with
  | zero =>
    intro idx sleeps last
    unfold msrGo
    rw [h idx]
    simp [msrGo]
  | succ fuel ih =>
    intro idx sleeps last
    conv =>
      lhs
      unfold msrGo
    rw [h idx]
    simp only [reduceIte]
    rw [ih (idx + 1) (sleeps + timeout) (403, body idx)]
    have h1 : idx + 1 + fuel = idx + (fuel + 1) := by omega
    have h2 : sleeps + timeout + (fuel + 1) * timeout = sleeps + (fuel + 1 + 1) * timeout := by
      ring
    rw [h1, h2]
    norm_num

/-- Claim C3: when every attempt of a request ends in the retriable 403
failure, exhausting the retry budget, the fetch_repos request step fails
with the ProviderError raised by raise_for_status, carrying the status and
body of the last response, instead of completing normally. -/
theorem retry_exhaustion_provider_error (att : Nat → Outcome) (body : Nat → String)
    (retry_attempts timeout : Nat) (h : ∀ i, att i = .resp 403 (body i)) :
    requestWithRaise att retry_attempts timeout =
      .providerError 403 (body retry_attempts) ∧
    ∀ s b, requestWithRaise att retry_attempts timeout ≠ .ok s b := by
  have hrun := msrGo_all_403 att body timeout h retry_attempts 0 0 (0, "")
  have hmain : requestWithRaise att retry_attempts timeout =
      .providerError 403 (body retry_attempts) := by
    unfold requestWithRaise make_safe_request
    rw [hrun]
    norm_num
  exact ⟨hmain, fun s b hok => by rw [hmain] at hok; exact FetchStep.noConfusion hok⟩

/-- Witness for C3: three attempts, all 403, retry budget 2; the step fails
with a ProviderError carrying the final 403 body. -/
theorem retry_exhaustion_provider_error_witness :
    requestWithRaise (fun i => .resp 403 (toString i)) 2 30 =
      .providerError 403 (toString 2) ∧
    ∀ s b, requestWithRaise (fun i => .resp 403 (toString i)) 2 30 ≠ .ok s b :=
  retry_exhaustion_provider_error (fun i => .resp 403 (toString i)) (fun i => toString i)
    2 30 (fun _ => rfl)

/-- Counterexample to claim C4: make_safe_request does not retry on
request-level exceptions.  With a first attempt raising and every later
attempt returning 200, and a retry budget of 12, the exception propagates
after a single request with no sleep; had exceptions been retried, the
second attempt would have returned the 200 response. -/
theorem make_safe_request_exception_not_retried :
    make_safe_request (fun i => if i = 0 then .exc "connection reset" else .resp 200 "ok")
      12 30 = (.raised "connection reset", 1, 0) ∧
    make_safe_request (fun i => if i = 0 then .exc "connection reset" else .resp 200 "ok")
      12 30 ≠ (.returned 200 "ok", 2, 30) := by
  constructor
  · rfl
  · decide

/-- Claim C4 (amended): make_safe_request retries only on HTTP 403, up to
retry_attempts retries beyond the first attempt, sleeping timeout seconds
after each 403 (the same value as the connect/read timeout); a request-level
exception propagates immediately without retry; a 200 response and every
non-200, non-403 status are returned to the caller immediately without any
retry. -/
theorem make_safe_request_retry_policy (att : Nat → Outcome)
    (retry_attempts timeout : Nat) :
    (∀ (body : Nat → String), (∀ i, att i = .resp 403 (body i)) →
      make_safe_request att retry_attempts timeout =
        (.returned 403 (body retry_attempts), retry_attempts + 1,
          (retry_attempts + 1) * timeout)) ∧
    (∀ b, att 0 = .resp 200 b →
      make_safe_request att retry_attempts timeout = (.returned 200 b, 1, 0)) ∧
    (∀ s b, att 0 = .resp s b → s ≠ 200 → s ≠ 403 →
      make_safe_request att retry_attempts timeout = (.returned s b, 1, 0)) ∧
    (∀ m, att 0 = .exc m →
      make_safe_request att retry_attempts timeout = (.raised m, 1, 0)) ∧
    (∀ b0 b1, att 0 = .resp 403 b0 → att 1 = .resp 200 b1 → 1 ≤ retry_attempts →
      make_safe_request att retry_attempts timeout =
        (.returned 200 b1, 2, timeout)) := by
  refine ⟨?_, ?_, ?_, ?_, ?_⟩
  · intro body h
    unfold make_safe_request
    rw [msrGo_all_403 att body timeout h retry_attempts 0 0 (0, "")]
    norm_num
  · intro b h0
    unfold make_safe_request msrGo
    rw [h0]
    norm_num
  · intro s b h0 h200 h403
    unfold make_safe_request msrGo
    rw [h0]
    simp [h200, h403]
  · intro m h0
    unfold make_safe_request msrGo
    rw [h0]
  · intro b0 b1 h0 h1 hra
    obtain ⟨k, rfl⟩ : ∃ k, retry_attempts = k + 1 := ⟨retry_attempts - 1, by omega⟩
    show msrGo att timeout (0, "") (k + 1 + 1) 0 0 = (.returned 200 b1, 2, timeout)
    conv =>
      lhs
      unfold msrGo
    rw [h0]
    simp only [reduceIte]
    conv =>
      lhs
      unfold msrGo
    rw [h1]
    norm_num

/-- Witness for the amended C4 on concrete oracles: a 404 first response is
returned at once; a 403 then 200 sequence retries exactly once with one
sleep of the timeout. -/
theorem make_safe_request_retry_policy_witness :
    (make_safe_request (fun _ => .resp 404 "nf") 3 30 = (.returned 404 "nf", 1, 0)) ∧
    (make_safe_request (fun i => if i = 0 then .resp 403 "lim" else .resp 200 "ok") 3 30 =
      (.returned 200 "ok", 2, 30)) :=
  ⟨(make_safe_request_retry_policy (fun _ => .resp 404 "nf") 3 30).2.2.1 404 "nf" rfl
      (by decide) (by decide),
   (make_safe_request_retry_policy
      (fun i => if i = 0 then .resp 403 "lim" else .resp 200 "ok") 3 30).2.2.2.2 "lim" "ok"
      rfl rfl (by decide)⟩

/-! ## Date-partitioned extraction driver: RepoInfoExtractor.extract

One iteration of the language loop of RepoInfoExtractor.extract
(src/etl/repo_info/extractor.py, lines 159-188) computes the deterministic
output path, skips the key when the artifact exists and overwrite is false,
and otherwise calls fetch_repos and writes the file when at least one row
came back.  The filesystem is an association list from paths to row lists;
fetch_repos is abstracted by an oracle giving, per language, the rows it
would return and the page requests it would issue. -/

/-- Shallow embedding of RepoInfoExtractor.get_filename
(src/etl/repo_info/extractor.py, lines 84-87): the partitioned output path
(the os.makedirs side effect creates only directories, never the artifact). -/
def get_filename (output_dir language created_at : String) : String :=
  output_dir ++ "/language=" ++ language ++ "/" ++ created_at ++ ".parquet"

/-- Lookup of a path in the modeled filesystem (os.path.exists and reading
the artifact content). -/
def fsLookup (fs : List (String × List Nat)) (name : String) : Option (List Nat) :=
  match fs with
  | [] => none
  | (n, d) :: rest => if n = name then some d else fsLookup rest name

/-- Write of a row list to a path (df.to_parquet), replacing any previous
artifact at that path. -/
def fsWrite (fs : List (String × List Nat)) (name : String) (rows : List Nat) :
    List (String × List Nat) :=
  match fs with
  | [] => [(name, rows)]
  | (n, d) :: rest => if n = name then (name, rows) :: rest else (n, d) :: fsWrite rest name rows

/-- Oracle describing what fetch_repos would do for a language on this date:
the rows returned and the number of page requests issued. -/
structure FetchEnv where
  result : String → List Nat
  requests : String → Nat

/-- Shallow embedding of one iteration of the language loop of
RepoInfoExtractor.extract (src/etl/repo_info/extractor.py, lines 159-188)
for a supported language: skip if the artifact exists and overwrite is
false, otherwise fetch and persist nonempty results.  Returns the new
filesystem and the number of network requests issued. -/
def extract_step (env : FetchEnv) (fs : List (String × List Nat)) (overwrite : Bool)
    (output_dir language created_at : String) : List (String × List Nat) × Nat :=
  let filename := get_filename output_dir language created_at
  if overwrite = false ∧ (fsLookup fs filename).isSome then (fs, 0)
  else
    let rows := env.result language
    if rows.isEmpty then (fs, env.requests language)
    else (fsWrite fs filename rows, env.requests language)

/-- Claim C5: for a key whose artifact already exists with overwrite false,
the driver issues zero network requests and leaves the filesystem, in
particular the artifact, unchanged; any run that changes the filesystem or
issues a request has overwrite set. -/
theorem idempotent_skip (env : FetchEnv) (fs : List (String × List Nat))
    (output_dir language created_at : String) (rows : List Nat)
    (hex : fsLookup fs (get_filename output_dir language created_at) = some rows) :
    extract_step env fs false output_dir language created_at = (fs, 0) ∧
    fsLookup (extract_step env fs false output_dir language created_at).1
      (get_filename output_dir language created_at) = some rows ∧
    (∀ overwrite : Bool,
      (extract_step env fs overwrite output_dir language created_at).1 ≠ fs ∨
        (extract_step env fs overwrite output_dir language created_at).2 ≠ 0 →
      overwrite = true) := by
  have hskip : extract_step env fs false output_dir language created_at = (fs, 0) := by
    unfold extract_step
    rw [if_pos ⟨rfl, by rw [hex]; rfl⟩]
  refine ⟨hskip, by rw [hskip]; exact hex, ?_⟩
  intro overwrite h
  cases overwrite with
  | true => rfl
  | false => rw [hskip] at h; rcases h with h | h <;> exact absurd rfl h

/-- Witness for C5 on a concrete filesystem holding one artifact. -/
theorem idempotent_skip_witness :
    extract_step ⟨fun _ => [9], fun _ => 5⟩
      [(get_filename "out" "python" "2021-06-01", [1, 2, 3])] false
      "out" "python" "2021-06-01" =
      ([(get_filename "out" "python" "2021-06-01", [1, 2, 3])], 0) ∧
    fsLookup (extract_step ⟨fun _ => [9], fun _ => 5⟩
        [(get_filename "out" "python" "2021-06-01", [1, 2, 3])] false
        "out" "python" "2021-06-01").1
      (get_filename "out" "python" "2021-06-01") = some [1, 2, 3] :=
  ⟨(idempotent_skip ⟨fun _ => [9], fun _ => 5⟩ _ "out" "python" "2021-06-01" [1, 2, 3]
      (by rfl)).1,
   (idempotent_skip ⟨fun _ => [9], fun _ => 5⟩ _ "out" "python" "2021-06-01" [1, 2, 3]
      (by rfl)).2.1⟩

/-! ## Repository structure walker, batch contract:
RepoStructureExtractor.extract (src/etl/extractors/repo_structure.py)

The batch loop iterates input repositories one at a time; a raising tree
fetch is caught and turned into the marker row with is_failed true, a
successful fetch with no surviving rows yields the marker row with is_failed
false, and a successful fetch with rows yields one output row per tree
entry.  The per-repository fetch is abstracted by its outcome. -/

/-- Filtered tree entry surviving fetch_repo_structure for one repository. -/
structure TreeRow where
  path : String
  url : String
  size : Nat
deriving DecidableEq

/-- Outcome of fetch_repo_structure for one repository: the filtered rows,
or an exception caught by the batch loop. -/
inductive FetchOutcome where
  | success (rows : List TreeRow)
  | failure
deriving DecidableEq

/-- Row of the batch output DataFrame: a structure entry or a marker row. -/
inductive OutRow where
  | entry (repoId : Nat) (path url : String) (size : Nat)
  | marker (repoId : Nat) (isFailed : Bool)
deriving DecidableEq

/-- Repository id carried by an output row. -/
def OutRow.repoId : OutRow → Nat
  | .entry i _ _ _ => i
  | .marker i _ => i

/-- Per-repository body of the batch loop of RepoStructureExtractor.extract
(src/etl/extractors/repo_structure.py, lines 100-122). -/
def processRepo : Nat × FetchOutcome → List OutRow
  | (rid, .failure) => [.marker rid true]
  | (rid, .success rows) =>
    if rows.isEmpty then [.marker rid false]
    else rows.map (fun t => .entry rid t.path t.url t.size)

/-- Shallow embedding of the batch loop of RepoStructureExtractor.extract
(src/etl/extractors/repo_structure.py, lines 99-124): concatenation of the
per-repository outputs in input order. -/
def extract_batch (repos : List (Nat × FetchOutcome)) : List OutRow :=
  (repos.map processRepo).flatten

/-- Helper: unfolding of processRepo on a failing repository. -/
theorem processRepo_failure (rid : Nat) :
    processRepo (rid, .failure) = [.marker rid true] := rfl

/-- Helper: unfolding of processRepo on a successful fetch. -/
theorem processRepo_success (rid : Nat) (rows : List TreeRow) :
    processRepo (rid, .success rows) =
      if rows.isEmpty then [.marker rid false]
      else rows.map (fun t => .entry rid t.path t.url t.size) := rfl

/-- Helper: flattening singleton blocks is a map. -/
theorem flatten_map_singleton {α β : Type} (l : List α) (g : α → β) :
    (l.map (fun a => [g a])).flatten = l.map g := by
  induction l with
  | nil => rfl
  | cons a l ih => simp [ih]

/-- Helper: a repository contributes a nonempty block of output rows. -/
theorem processRepo_ne_nil (r : Nat × FetchOutcome) : processRepo r ≠ [] := by
  obtain ⟨rid, o⟩ := r
  cases o with
  | failure => exact List.cons_ne_nil _ _
  | success rows =>
    rw [processRepo_success]
    by_cases hemp : rows.isEmpty
    · rw [if_pos hemp]; exact List.cons_ne_nil _ _
    · rw [if_neg hemp]
      intro hmap
      rw [List.map_eq_nil_iff] at hmap
      exact hemp (by rw [hmap]; rfl)

/-- Helper: every row a repository contributes carries that repository's
id. -/
theorem processRepo_repoId (r : Nat × FetchOutcome) :
    ∀ row ∈ processRepo r, row.repoId = r.1 := by
  obtain ⟨rid, o⟩ := r
  cases o with
  | failure =>
    intro row hrow
    rw [processRepo_failure] at hrow
    rw [List.mem_singleton.mp hrow]
    rfl
  | success rows =>
    intro row hrow
    rw [processRepo_success] at hrow
    by_cases hemp : rows.isEmpty
    · rw [if_pos hemp] at hrow
      rw [List.mem_singleton.mp hrow]
      rfl
    · rw [if_neg hemp] at hrow
      obtain ⟨t, _, rfl⟩ := List.mem_map.mp hrow
      rfl

/-- Claim C6: the batch output has one block (success rows or one marker
row) per input repository and never drops a repository; a repository whose
fetch raises contributes exactly the marker row with is_failed true; when
every fetch raises, the output is the list of failure markers, one per
input repository, so output length equals input length. -/
theorem batch_output_per_repo (repos : List (Nat × FetchOutcome)) :
    ((∀ r ∈ repos, r.2 = .failure) →
      extract_batch repos = repos.map (fun r => .marker r.1 true) ∧
      (extract_batch repos).length = repos.length) ∧
    (∀ r ∈ repos, processRepo r ≠ []) ∧
    (∀ r ∈ repos, ∃ row ∈ extract_batch repos, row.repoId = r.1) ∧
    (∀ rid, processRepo (rid, .failure) = [.marker rid true]) := by
  refine ⟨?_, fun r _ => processRepo_ne_nil r, ?_, fun _ => rfl⟩
  · intro hall
    have hmap : repos.map processRepo = repos.map (fun r => [OutRow.marker r.1 true]) := by
      apply List.map_congr_left
      intro r hr
      obtain ⟨rid, o⟩ := r
      have ho : o = .failure := hall (rid, o) hr
      subst ho
      rfl
    have hbatch : extract_batch repos = repos.map (fun r => OutRow.marker r.1 true) := by
      unfold extract_batch
      rw [hmap, flatten_map_singleton]
    exact ⟨hbatch, by rw [hbatch, List.length_map]⟩
  · intro r hr
    obtain ⟨row, hrow⟩ := List.exists_mem_of_ne_nil _ (processRepo_ne_nil r)
    refine ⟨row, ?_, processRepo_repoId r row hrow⟩
    unfold extract_batch
    exact List.mem_flatten.mpr ⟨processRepo r, List.mem_map_of_mem processRepo hr, hrow⟩

/-- Witness for C6: a batch of two repositories whose fetches both raise
yields exactly the two failure markers. -/
theorem batch_output_per_repo_witness :
    extract_batch [(1, .failure), (2, .failure)] =
      [OutRow.marker 1 true, OutRow.marker 2 true] ∧
    (extract_batch [(1, .failure), (2, .failure)]).length = 2 :=
  (batch_output_per_repo [(1, .failure), (2, .failure)]).1 (by decide)

/-! ## Repository structure walker, 404 recovery:
RepoStructureExtractor.fetch_repo_structure
(src/etl/extraction/repo_structure.py)

fetch_repo_structure runs an unbounded while-True loop: a 200 response
breaks out; a 404 response triggers a get_branch call and, whenever a
nonempty branch comes back, another full tree fetch; only a missing branch
or a status other than 200 and 404 breaks out of the loop.  After the loop,
response.json()["tree"] is read; a response whose JSON body has no tree
field (the case for the error responses the loop breaks on) raises a
KeyError.  The fetch at index n and the branch resolution after it are
modeled by oracles on the iteration index; the path pattern is abstracted to
a predicate on paths (the source applies a regex via str.contains). -/

/-- Entry of the tree endpoint response. -/
structure GitTreeEntry where
  path : String
  type : String
  url : String
deriving DecidableEq

/-- Response of one tree fetch: the HTTP status and, when the JSON body has
a tree field, its entries. -/
structure TreeResp where
  status : Nat
  tree : Option (List GitTreeEntry)
deriving DecidableEq

/-- Result of fetch_repo_structure: the filtered entries, a raised KeyError
from reading the tree field of a failed response, or a loop that is still
running after the modeled iterations. -/
inductive StructResult where
  | ok (rows : List GitTreeEntry)
  | raisedKeyError
  | looping
deriving DecidableEq

/-- Parse phase of fetch_repo_structure
(src/etl/extraction/repo_structure.py, lines 74-82): read the tree field
(raising when absent), keep blob entries, lowercase paths, apply the
optional path-pattern predicate. -/
def parseTreeResp (pat : Option (String → Bool)) (r : TreeResp) : StructResult :=
  match r.tree with
  | none => .raisedKeyError
  | some entries =>
    let blobs := entries.filter (fun e => e.type == "blob")
    let lowered := blobs.map (fun e => { e with path := e.path.toLower })
    match pat with
    | none => .ok lowered
    | some p => .ok (lowered.filter (fun e => p e.path))

/-- Shallow embedding of the retry loop of
RepoStructureExtractor.fetch_repo_structure
(src/etl/extraction/repo_structure.py, lines 52-82).  treeResp n is the
response of the n-th tree fetch; branchResp n is the result of the
get_branch call made after the n-th tree fetch returned 404 (none models a
non-200 metadata response, for which get_branch returns None).  The fuel
counts modeled iterations of the unbounded while-True loop. -/
def fetch_repo_structure (treeResp : Nat → TreeResp) (branchResp : Nat → Option String)
    (pat : Option (String → Bool)) : Nat → Nat → StructResult
  | 0, _ => .looping
  | fuel + 1, n =>
    let r := treeResp n
    if r.status = 200 then parseTreeResp pat r
    else if r.status = 404 then
      match branchResp n with
      | some b =>
        if b.isEmpty then parseTreeResp pat r
        else fetch_repo_structure treeResp branchResp pat fuel (n + 1)
      | none => parseTreeResp pat r
    else parseTreeResp pat r

/-- Helper: one-step unfolding of the fetch_repo_structure loop. -/
theorem fetch_repo_structure_succ (treeResp : Nat → TreeResp)
    (branchResp : Nat → Option String) (pat : Option (String → Bool)) (fuel n : Nat) :
    fetch_repo_structure treeResp branchResp pat (fuel + 1) n =
      if (treeResp n).status = 200 then parseTreeResp pat (treeResp n)
      else if (treeResp n).status = 404 then
        match branchResp n with
        | some b =>
          if b.isEmpty then parseTreeResp pat (treeResp n)
          else fetch_repo_structure treeResp branchResp pat fuel (n + 1)
        | none => parseTreeResp pat (treeResp n)
      else parseTreeResp pat (treeResp n) := rfl

/-- Counterexample to claim C7: the 404 recovery is not bounded by one
re-resolution and one retry.  Against a repository whose tree fetch returns
404 on every attempt while the metadata call keeps resolving a branch, the
loop is still running after five full iterations (five tree fetches), where
a single-recovery walker would have stopped after the second; and it never
yields an empty per-repository result along the way. -/
theorem fetch_repo_structure_unbounded_retry :
    fetch_repo_structure (fun _ => ⟨404, none⟩) (fun _ => some "main") none 5 0 =
      .looping ∧
    fetch_repo_structure (fun _ => ⟨404, none⟩) (fun _ => some "main") none 3 0 =
      .looping := by
  constructor <;> rfl

/-- Claim C7 (amended): on a 404 tree fetch the walker re-resolves the
default branch; whenever a nonempty branch comes back it retries the tree
fetch, and it repeats this recovery on every subsequent 404 with no bound on
the number of retries; the loop exits only on a 200 response, on a 404 with
no resolvable branch, or on another status, and in the two failure cases
the subsequent read of the tree field raises (KeyError) when the failed
response carries no tree field, rather than returning an empty result —
the enclosing batch loop is what converts that exception into a marker
row. -/
theorem fetch_repo_structure_recovery_loop (treeResp : Nat → TreeResp)
    (branchResp : Nat → Option String) (pat : Option (String → Bool))
    (fuel n : Nat) :
    ((treeResp n).status = 200 →
      fetch_repo_structure treeResp branchResp pat (fuel + 1) n =
        parseTreeResp pat (treeResp n)) ∧
    ((treeResp n).status = 404 → ∀ b, branchResp n = some b → ¬ b.isEmpty →
      fetch_repo_structure treeResp branchResp pat (fuel + 1) n =
        fetch_repo_structure treeResp branchResp pat fuel (n + 1)) ∧
    ((treeResp n).status = 404 → branchResp n = none →
      fetch_repo_structure treeResp branchResp pat (fuel + 1) n =
        parseTreeResp pat (treeResp n) ∧
      ((treeResp n).tree = none →
        fetch_repo_structure treeResp branchResp pat (fuel + 1) n = .raisedKeyError)) ∧
    ((treeResp n).status ≠ 200 → (treeResp n).status ≠ 404 →
      fetch_repo_structure treeResp branchResp pat (fuel + 1) n =
        parseTreeResp pat (treeResp n) ∧
      ((treeResp n).tree = none →
        fetch_repo_structure treeResp branchResp pat (fuel + 1) n = .raisedKeyError)) := by
  refine ⟨?_, ?_, ?_, ?_⟩
  · intro h200
    rw [fetch_repo_structure_succ, if_pos h200]
  · intro h404 b hb hbne
    rw [fetch_repo_structure_succ, if_neg (by rw [h404]; decide), if_pos h404, hb]
    show (if b.isEmpty = true then parseTreeResp pat (treeResp n)
      else fetch_repo_structure treeResp branchResp pat fuel (n + 1)) =
      fetch_repo_structure treeResp branchResp pat fuel (n + 1)
    simp only [Bool.not_eq_true] at hbne
    rw [hbne]
    simp
  · intro h404 hb
    have heq : fetch_repo_structure treeResp branchResp pat (fuel + 1) n =
        parseTreeResp pat (treeResp n) := by
      rw [fetch_repo_structure_succ, if_neg (by rw [h404]; decide), if_pos h404, hb]
    refine ⟨heq, fun htree => ?_⟩
    rw [heq]
    unfold parseTreeResp
    rw [htree]
  · intro h200 h404
    have heq : fetch_repo_structure treeResp branchResp pat (fuel + 1) n =
        parseTreeResp pat (treeResp n) := by
      rw [fetch_repo_structure_succ, if_neg h200, if_neg h404]
    refine ⟨heq, fun htree => ?_⟩
    rw [heq]
    unfold parseTreeResp
    rw [htree]

/-- Witness for the amended C7: a 404 with an unresolvable branch raises a
KeyError out of the walker, and a 404 with a resolved branch goes around the
loop again. -/
theorem fetch_repo_structure_recovery_loop_witness :
    fetch_repo_structure (fun _ => ⟨404, none⟩) (fun _ => none) none 4 0 =
      .raisedKeyError ∧
    fetch_repo_structure (fun _ => ⟨404, none⟩) (fun _ => some "main") none 4 0 =
      fetch_repo_structure (fun _ => ⟨404, none⟩) (fun _ => some "main") none 3 1 :=
  ⟨((fetch_repo_structure_recovery_loop (fun _ => ⟨404, none⟩) (fun _ => none) none
      3 0).2.2.1 rfl rfl).2 rfl,
   (fetch_repo_structure_recovery_loop (fun _ => ⟨404, none⟩) (fun _ => some "main") none
      3 0).2.1 rfl "main" rfl (by decide)⟩

/-! ## Package-manifest parsing: PythonPackagesExtractor
(src/etl/repo_content/py_packages_extraction.py)

extract_package_info first removes the comment part of the line (re.sub of
everything from the first hash character to the end) and then matches the
anchored pattern with groups name, operator, version over the classes word
character or hyphen, the operator characters, and word character or dot.
Because the trailing part of the pattern (a lazy any-group, optional
whitespace, and an optional semicolon group) matches any remainder, the
greedy group scan is deterministic: each of the three groups takes the
longest prefix of its class after skipping whitespace.  A matched operator
outside the recognized operator set is replaced by None; the package name
alone decides whether the line yields a record.  parse_content lowercases
and strips the decoded content, splits on newlines, and keeps lines that are
nonblank and start with a letter.  Strings are processed as character lists;
the base64 decode (decode_content) happens upstream of parse_content and is
modeled by passing the decoded text (none models a falsy decode result). -/

/-- Character class of the name group: word character or hyphen. -/
def wordChar (c : Char) : Bool := c.isAlphanum || c = '_' || c = '-'

/-- Character class of the operator group. -/
def opChar (c : Char) : Bool := c = '>' || c = '<' || c = '=' || c = '~'

/-- Character class of the version group: word character or dot. -/
def verChar (c : Char) : Bool := c.isAlphanum || c = '_' || c = '.'

/-- Recognized version operators
(src/etl/repo_content/py_packages_extraction.py, line 50). -/
def version_operators : List String := ["~=", ">=", "<=", "==", ">", "<"]

/-- Shallow embedding of PythonPackagesExtractor.extract_package_info
(src/etl/repo_content/py_packages_extraction.py, lines 34-55): comment
removal, the deterministic greedy group scan of the anchored pattern, the
or-None collapse of empty groups, and the operator whitelist. -/
def extract_package_info (line : List Char) :
    Option String × Option String × Option String :=
  let cs := line.takeWhile (fun c => c ≠ '#')
  let cs1 := cs.dropWhile Char.isWhitespace
  let pkg := cs1.takeWhile wordChar
  if pkg.isEmpty then (none, none, none)
  else
    let rest1 := (cs1.dropWhile wordChar).dropWhile Char.isWhitespace
    let op := rest1.takeWhile opChar
    let rest2 := (rest1.dropWhile opChar).dropWhile Char.isWhitespace
    let ver := rest2.takeWhile verChar
    let oper : Option String :=
      if op.isEmpty then none
      else if version_operators.contains (String.mk op) then some (String.mk op)
      else none
    let version : Option String := if ver.isEmpty then none else some (String.mk ver)
    (some (String.mk pkg), oper, version)

/-- Row produced by parse_content: the placeholder row for falsy decoded
content, or one parsed dependency record. -/
inductive PkgRow where
  | emptyContent
  | pkg (package : String) (oper version : Option String)
deriving DecidableEq

/-- Per-line body of the parse_content loop
(src/etl/repo_content/py_packages_extraction.py, lines 67-81): keep lines
that are nonblank and start with a letter, then record the parse when a
package name was matched. -/
def parse_line (line : List Char) : List PkgRow :=
  if (line.dropWhile Char.isWhitespace).isEmpty then []
  else
    match line with
    | [] => []
    | c :: _ =>
      if c.isAlpha then
        match extract_package_info line with
        | (some p, o, v) => [.pkg p o v]
        | (none, _, _) => []
      else []

/-- Split of a character list on newline characters (str.split on a
newline). -/
def splitNl : List Char → List (List Char)
  | [] => [[]]
  | c :: rest =>
    if c = '\x0a' then [] :: splitNl rest
    else
      match splitNl rest with
      | [] => [[c]]
      | l :: ls => (c :: l) :: ls

/-- Strip of leading and trailing whitespace (str.strip). -/
def pyStrip (cs : List Char) : List Char :=
  ((cs.dropWhile Char.isWhitespace).reverse.dropWhile Char.isWhitespace).reverse

/-- Shallow embedding of PythonPackagesExtractor.parse_content
(src/etl/repo_content/py_packages_extraction.py, lines 57-83) applied to the
decoded content (none for a falsy decode result): emit the placeholder row
on falsy content, otherwise strip, lowercase, split on newlines, and parse
each line. -/
def parse_content (decoded : Option String) : List PkgRow :=
  match decoded with
  | none => [.emptyContent]
  | some content =>
    if content.isEmpty then [.emptyContent]
    else
      let lines := splitNl ((pyStrip content.toList).map Char.toLower)
      (lines.map parse_line).flatten

/-- Counterexample to claim C9: the scenario input yields three records, not
two — the line not_a_pkg!! matches the name grammar (word characters and
hyphens cover it entirely), so it contributes a record with operator None
and version None instead of being dropped. -/
theorem parse_content_c9_not_two_records :
    (parse_content (some
      "flask==2.0.1\x0a# comment\x0a\x0arequests>=2,<3 ; python_version>=\x273.8\x27\x0anot_a_pkg!!")).length
      = 3 ∧
    PkgRow.pkg "not_a_pkg" none none ∈ parse_content (some
      "flask==2.0.1\x0a# comment\x0a\x0arequests>=2,<3 ; python_version>=\x273.8\x27\x0anot_a_pkg!!") := by
  constructor
  · rfl
  · decide

/-- Claim C9 (amended): parsing the scenario manifest yields exactly three
dependency records — flask with operator == and version 2.0.1, requests
with operator >= and version 2, and not_a_pkg with operator None and
version None (its line matches the package-name grammar even though the
trailing exclamation marks match no further group); the comment line and
the blank line contribute no records. -/
theorem parse_content_c9_scenario :
    parse_content (some
      "flask==2.0.1\x0a# comment\x0a\x0arequests>=2,<3 ; python_version>=\x273.8\x27\x0anot_a_pkg!!") =
      [.pkg "flask" (some "==") (some "2.0.1"),
       .pkg "requests" (some ">=") (some "2"),
       .pkg "not_a_pkg" none none] := rfl
